import Mathlib

/-!
Shallow embedding of the mcp-client aggregation gateway.

Sources embedded here:
- `src/server-config.ts` (`ServerConfig`, `ServerConfigManager.load`,
  `ServerConfigManager.getAllServers`);
- `src/aggregator-server.ts` (`AggregatorMCPServer`: capability aggregation
  and the CallTool / ReadResource / GetPrompt request handlers);
- `src/universal-mcp-client.ts` (`UniversalMCPClient.connect` transport
  dispatch);
- `src/mcp-client.ts` (`LinearMCPClient.authenticate`, structurally identical
  to `UniversalMCPClient.authenticateOAuth2`);
- `oauth2-client.ts` (`OAuth2Client.refreshAccessToken`);
- `src/start-aggregator.ts` (`main`).

External I/O (network calls, the protocol library, the filesystem) is passed
in as explicit outcome arguments; JavaScript `Map`s become association lists
with `Map.set` / `Map.get` semantics; JavaScript truthiness of optional
numbers and strings (`0` and `""` are falsy) is modelled explicitly.
-/

namespace MCP

/-- JavaScript `Map.get`: first (unique) matching key. -/
def alookup {α : Type} (m : List (String × α)) (k : String) : Option α :=
  match m with
  | [] => none
  | (k2, v) :: rest => if k2 = k then some v else alookup rest k

/-- JavaScript `Map.set`: update the existing key in place, else append. -/
def aset {α : Type} (m : List (String × α)) (k : String) (v : α) :
    List (String × α) :=
  match m with
  | [] => [(k, v)]
  | (k2, v2) :: rest =>
      if k2 = k then (k, v) :: rest else (k2, v2) :: aset rest k v

/-- Folding `Map.set` over a list of items, as the aggregation loops do. -/
def asetFold {α β : Type} (key : β → String) (val : β → α)
    (m : List (String × α)) (xs : List β) : List (String × α) :=
  xs.foldl (fun acc x => aset acc (key x) (val x)) m

/-- `authType` field of an HTTP-ish transport config (`server-config.ts`). -/
inductive AuthType
  | oauth2
  | bearer
deriving DecidableEq

/-- `TransportConfig` union from `server-config.ts`. -/
inductive TransportConfig
  | stdio (command : String) (args : List String) (env : List (String × String))
  | streamableHttp (url : String) (headers : List (String × String))
      (requiresAuth : Bool) (authType : Option AuthType)
      (clientId : Option String) (clientSecret : Option String)
  | sse (url : String) (headers : List (String × String))
      (requiresAuth : Bool) (authType : Option AuthType)
      (clientId : Option String) (clientSecret : Option String)
  | websocket (url : String) (headers : List (String × String))
deriving DecidableEq

/-- `ServerConfig` record from `server-config.ts`. -/
structure ServerConfig where
  id : String
  name : String
  description : Option String := none
  transport : TransportConfig
  createdAt : Nat
  lastUsed : Option Nat := none
deriving DecidableEq

/-- JavaScript truthiness of `lastUsed` as the `getAllServers` comparator sees
it: `undefined` and `0` are both falsy. -/
def luKey (c : ServerConfig) : Option Nat :=
  match c.lastUsed with
  | some t => if t = 0 then none else some t
  | none => none

/-- The comparator passed to `sort` in `ServerConfigManager.getAllServers`:
both truthy `lastUsed` → `b.lastUsed - a.lastUsed`; only `a` truthy → `-1`;
only `b` truthy → `1`; neither → `b.createdAt - a.createdAt`. -/
def serverCmp (a b : ServerConfig) : Int :=
  match luKey a, luKey b with
  | some x, some y => (y : Int) - (x : Int)
  | some _, none => -1
  | none, some _ => 1
  | none, none => (b.createdAt : Int) - (a.createdAt : Int)

/-- The total preorder induced by the comparator (`a` may come before `b`). -/
def serverLe (a b : ServerConfig) : Prop := serverCmp a b ≤ 0

instance : DecidableRel serverLe := fun a b => Int.decLe (serverCmp a b) 0

/-- `ServerConfigManager.load`: parse the config file; on any read/parse
error, silently fall back to an empty server map (see the catch branch). -/
def loadConfigs (raw : Except String (List ServerConfig)) :
    List (String × ServerConfig) :=
  match raw with
  | .ok cfgs => cfgs.foldl (fun m c => aset m c.id c) []
  | .error _ => []

/-- `ServerConfigManager.getAllServers`: values of the server map, sorted by
the comparator.  Any sort correct for this (consistent) comparator yields a
list sorted by `serverLe`; we use insertion sort. -/
def getAllServers (servers : List (String × ServerConfig)) : List ServerConfig :=
  List.insertionSort serverLe (servers.map Prod.snd)

/-- The ordering claim C9 asserts, read with JavaScript truthiness for
`lastUsed` (amended form): truthy-`lastUsed` servers first, more recently
used first among them; the rest by more recent `createdAt` first. -/
def claimOrder (a b : ServerConfig) : Prop :=
  match luKey a, luKey b with
  | some x, some y => y ≤ x
  | some _, none => True
  | none, some _ => False
  | none, none => b.createdAt ≤ a.createdAt

/-- The ordering exactly as claim C9 words it: presence of a `lastUsed`
timestamp (not its truthiness) decides the first comparison. -/
def specOrderC9 (a b : ServerConfig) : Bool :=
  match a.lastUsed, b.lastUsed with
  | some x, some y => decide (y ≤ x)
  | some _, none => true
  | none, some _ => false
  | none, none => decide (b.createdAt ≤ a.createdAt)

/-- Caller-supplied JSON arguments, abstracted as a key/value list. -/
def Args : Type := List (String × String)

/-- Opaque payload relayed from an upstream; its structure never matters to
the gateway, which forwards it unchanged. -/
def UpstreamResult : Type := String

/-- `ToolInfo` from `universal-mcp-client.ts`. -/
structure ToolInfo where
  name : String
  description : Option String := none
  inputSchema : String := ""
deriving DecidableEq

/-- `ResourceInfo` from `universal-mcp-client.ts`. -/
structure ResourceInfo where
  uri : String
  name : String
  description : Option String := none
  mimeType : Option String := none
deriving DecidableEq

/-- `PromptInfo` from `universal-mcp-client.ts`. -/
structure PromptInfo where
  name : String
  description : Option String := none
  arguments : List String := []
deriving DecidableEq

/-- A connected upstream as the aggregator sees it: the negotiated capability
flags, the outcome of each listing call (which may throw), and the behaviour
of its invocation methods (external to this repository). -/
structure ConnectedServer where
  hasTools : Bool := false
  toolsResult : Except String (List ToolInfo) := .ok []
  hasResources : Bool := false
  resourcesResult : Except String (List ResourceInfo) := .ok []
  hasPrompts : Bool := false
  promptsResult : Except String (List PromptInfo) := .ok []
  callTool : String → Args → UpstreamResult := fun _ _ => ""
  readResource : String → UpstreamResult := fun _ => ""
  getPrompt : String → Option Args → UpstreamResult := fun _ _ => ""

/-- One configured upstream together with the outcome of its connection
attempt (`none` models `client.connect()` throwing). -/
structure UpstreamInput where
  config : ServerConfig
  connectResult : Option ConnectedServer

/-- `AggregatedTool` from `aggregator-server.ts`. -/
structure AggregatedTool where
  name : String
  description : String
  inputSchema : String
  serverId : String
  originalName : String
deriving DecidableEq

/-- `AggregatedResource` from `aggregator-server.ts`. -/
structure AggregatedResource where
  uri : String
  name : String
  description : Option String
  mimeType : Option String
  serverId : String
  originalUri : String
deriving DecidableEq

/-- `AggregatedPrompt` from `aggregator-server.ts`. -/
structure AggregatedPrompt where
  name : String
  description : String
  arguments : List String
  serverId : String
  originalName : String
deriving DecidableEq

/-- Mutable state of `AggregatorMCPServer`: the client map, the three
registries, plus the log streams the claims talk about. -/
structure AggState where
  clients : List (String × ConnectedServer) := []
  tools : List (String × AggregatedTool) := []
  resources : List (String × AggregatedResource) := []
  prompts : List (String × AggregatedPrompt) := []
  failLogs : List String := []
  listErrLogs : List String := []
  warnedNoServers : Bool := false

/-- JavaScript `x || fallback` on an optional string (empty string falsy). -/
def descOr (d : Option String) (fallback : String) : String :=
  match d with
  | some s => if s = "" then fallback else s
  | none => fallback

/-- Namespaced public identifier of a tool: `<serverId>__<name>`. -/
def toolKey (sid : String) (t : ToolInfo) : String := sid ++ "__" ++ t.name

/-- Namespaced public identifier of a resource: `<serverId>://<uri>`. -/
def resourceKey (sid : String) (r : ResourceInfo) : String :=
  sid ++ "://" ++ r.uri

/-- Namespaced public identifier of a prompt: `<serverId>__<name>`. -/
def promptKey (sid : String) (p : PromptInfo) : String := sid ++ "__" ++ p.name

/-- Registry entry built for one tool (aggregator-server.ts, tools loop). -/
def toolEntry (sid sname : String) (t : ToolInfo) : AggregatedTool :=
  { name := toolKey sid t
    description := "[" ++ sname ++ "] " ++ descOr t.description t.name
    inputSchema := t.inputSchema
    serverId := sid
    originalName := t.name }

/-- Registry entry built for one resource. -/
def resourceEntry (sid sname : String) (r : ResourceInfo) : AggregatedResource :=
  { uri := resourceKey sid r
    name := "[" ++ sname ++ "] " ++ r.name
    description := r.description
    mimeType := r.mimeType
    serverId := sid
    originalUri := r.uri }

/-- Registry entry built for one prompt. -/
def promptEntry (sid sname : String) (p : PromptInfo) : AggregatedPrompt :=
  { name := promptKey sid p
    description := "[" ++ sname ++ "] " ++ descOr p.description p.name
    arguments := p.arguments
    serverId := sid
    originalName := p.name }

/-- Tools block of the aggregation loop: guarded by the capability flag; a
listing error is logged and skipped without touching the registry. -/
def stepTools (sid sname : String) (conn : ConnectedServer) (st : AggState) :
    AggState :=
  if conn.hasTools then
    match conn.toolsResult with
    | .ok ts =>
        { st with tools := asetFold (toolKey sid) (toolEntry sid sname) st.tools ts }
    | .error e =>
        { st with listErrLogs := st.listErrLogs ++ ["Error loading tools: " ++ e] }
  else st

/-- Resources block of the aggregation loop. -/
def stepResources (sid sname : String) (conn : ConnectedServer) (st : AggState) :
    AggState :=
  if conn.hasResources then
    match conn.resourcesResult with
    | .ok rs =>
        { st with resources :=
            asetFold (resourceKey sid) (resourceEntry sid sname) st.resources rs }
    | .error e =>
        { st with listErrLogs := st.listErrLogs ++ ["Error loading resources: " ++ e] }
  else st

/-- Prompts block of the aggregation loop. -/
def stepPrompts (sid sname : String) (conn : ConnectedServer) (st : AggState) :
    AggState :=
  if conn.hasPrompts then
    match conn.promptsResult with
    | .ok ps =>
        { st with prompts :=
            asetFold (promptKey sid) (promptEntry sid sname) st.prompts ps }
    | .error e =>
        { st with listErrLogs := st.listErrLogs ++ ["Error loading prompts: " ++ e] }
  else st

/-- One iteration of the aggregation loop over configured upstreams: a failed
connect is caught, logged once, and skipped; a successful connect stores the
client and aggregates each advertised capability category. -/
def processServer (st : AggState) (inp : UpstreamInput) : AggState :=
  match inp.connectResult with
  | none => { st with failLogs := st.failLogs ++ [inp.config.id] }
  | some conn =>
      stepPrompts inp.config.id inp.config.name conn
        (stepResources inp.config.id inp.config.name conn
          (stepTools inp.config.id inp.config.name conn
            { st with clients := aset st.clients inp.config.id conn }))

/-- `AggregatorMCPServer`'s startup aggregation pass: with zero configured
upstreams it warns and returns early with an empty registry; otherwise it
folds the per-upstream loop over the whole list.  The return type being a
plain `AggState` (not `Except`) reflects that the per-upstream try/catch lets
no connection error escape the loop. -/
def initAggregator (servers : List UpstreamInput) : AggState :=
  if servers.isEmpty then { warnedNoServers := true }
  else servers.foldl processServer {}

/-- CallTool request handler: registry lookup, client lookup, then forward
with the original name and the caller arguments (`arguments || {}`).  The
state is returned alongside because the handler never mutates it. -/
def handleCallTool (st : AggState) (nm : String) (args : Option Args) :
    Except String UpstreamResult × AggState :=
  match alookup st.tools nm with
  | none => (.error ("Tool not found: " ++ nm), st)
  | some tool =>
      match alookup st.clients tool.serverId with
      | none => (.error ("Client not found for server: " ++ tool.serverId), st)
      | some client =>
          (.ok (client.callTool tool.originalName (args.getD [])), st)

/-- ReadResource request handler. -/
def handleReadResource (st : AggState) (uri : String) :
    Except String UpstreamResult × AggState :=
  match alookup st.resources uri with
  | none => (.error ("Resource not found: " ++ uri), st)
  | some res =>
      match alookup st.clients res.serverId with
      | none => (.error ("Client not found for server: " ++ res.serverId), st)
      | some client => (.ok (client.readResource res.originalUri), st)

/-- GetPrompt request handler (the caller arguments are forwarded as-is,
without the `|| {}` default the tool handler applies). -/
def handleGetPrompt (st : AggState) (nm : String) (args : Option Args) :
    Except String UpstreamResult × AggState :=
  match alookup st.prompts nm with
  | none => (.error ("Prompt not found: " ++ nm), st)
  | some p =>
      match alookup st.clients p.serverId with
      | none => (.error ("Client not found for server: " ++ p.serverId), st)
      | some client => (.ok (client.getPrompt p.originalName args), st)

/-- Observable side effects attempted by `UniversalMCPClient.connect`. -/
inductive ConnectEffect
  | spawnProcess (command : String)
  | oauthAcquire (url : String)
  | protocolConnect (url : String)
deriving DecidableEq

/-- `UniversalMCPClient.connect`: dispatch on the transport kind, returning
the list of side effects attempted (in order) and the outcome.  The websocket
branch throws before doing anything. -/
def connect (t : TransportConfig) : List ConnectEffect × Except String Unit :=
  match t with
  | .stdio cmd _ _ =>
      ([ConnectEffect.spawnProcess cmd, ConnectEffect.protocolConnect cmd], .ok ())
  | .streamableHttp url _ reqAuth authTy _ _ =>
      if reqAuth = true ∧ authTy = some AuthType.oauth2 then
        ([ConnectEffect.oauthAcquire url, ConnectEffect.protocolConnect url], .ok ())
      else ([ConnectEffect.protocolConnect url], .ok ())
  | .sse url _ reqAuth authTy _ _ =>
      if reqAuth = true ∧ authTy = some AuthType.oauth2 then
        ([ConnectEffect.oauthAcquire url, ConnectEffect.protocolConnect url], .ok ())
      else ([ConnectEffect.protocolConnect url], .ok ())
  | .websocket _ _ => ([], .error "WebSocket transport not yet implemented")

/-- `StoredCredentials` from `credential-storage.ts` (times in ms). -/
structure StoredCredentials where
  clientId : String
  clientSecret : Option String := none
  accessToken : String
  refreshToken : Option String := none
  tokenType : String
  expiresAt : Option Nat := none
deriving DecidableEq

/-- Token-endpoint JSON response body. -/
structure TokenResponse where
  access_token : String
  refresh_token : Option String := none
  token_type : String
  expires_in : Option Nat := none
deriving DecidableEq

/-- OAuth metadata discovery document (fields the flows read). -/
structure OAuthMetadata where
  issuer : String := ""
  authorization_endpoint : String := ""
  token_endpoint : String := ""
  registration_endpoint : Option String := none
deriving DecidableEq

/-- `OAuth2Client.refreshAccessToken`.  `resp` is the outcome of the POST to
the token endpoint (`.error` models a non-success HTTP status, which throws).
On success the credential keeps `tokenData.refresh_token || refreshToken`
(empty string falsy) and computes
`expires_in ? Date.now() + expires_in * 1000 : undefined` (zero falsy). -/
def refreshAccessToken (now : Nat) (resp : Except String TokenResponse)
    (refreshToken : String) (clientId : String) (clientSecret : Option String) :
    Except String StoredCredentials :=
  match resp with
  | .error e => .error ("Token refresh failed: " ++ e)
  | .ok td =>
      .ok { clientId := clientId
            clientSecret := clientSecret
            accessToken := td.access_token
            refreshToken := some (match td.refresh_token with
              | some rt => if rt = "" then refreshToken else rt
              | none => refreshToken)
            tokenType := td.token_type
            expiresAt := match td.expires_in with
              | some s => if s = 0 then none else some (now + s * 1000)
              | none => none }

/-- Expiry as claim C7 words it: present whenever the response includes
`expires_in`, equal to the call time plus `expires_in` seconds. -/
def claimExpiresAtC7 (now : Nat) (td : TokenResponse) : Option Nat :=
  td.expires_in.map (fun s => now + s * 1000)

/-- JavaScript `credentials.expiresAt && credentials.expiresAt < Date.now()`
(zero falsy). -/
def credExpired (c : StoredCredentials) (now : Nat) : Bool :=
  match c.expiresAt with
  | some t => decide (0 < t ∧ t < now)
  | none => false

/-- Network/auth actions performed by `authenticate`, in order.  `fullAuth`
stands for the whole `performFullAuth` flow (discovery, registration,
browser authorization, code exchange), treated as one external outcome. -/
inductive AuthEvent
  | discover
  | refreshCall
  | fullAuth
deriving DecidableEq

/-- `LinearMCPClient.authenticate` (same logic as
`UniversalMCPClient.authenticateOAuth2`): return an unexpired stored
credential directly; if expired with a truthy refresh token, discover
metadata and attempt one refresh, falling back to `performFullAuth` if either
throws; otherwise perform full authorization.  External outcomes (discovery,
token-endpoint response, full-auth result) are passed as arguments; the
returned trace lists the actions performed. -/
def authenticate (stored : Option StoredCredentials) (now : Nat)
    (discResult : Except String OAuthMetadata)
    (refreshResp : Except String TokenResponse)
    (fullAuthResult : StoredCredentials) :
    StoredCredentials × List AuthEvent :=
  match stored with
  | none => (fullAuthResult, [AuthEvent.fullAuth])
  | some c =>
      if credExpired c now then
        match c.refreshToken with
        | some rt =>
            if rt = "" then (fullAuthResult, [AuthEvent.fullAuth])
            else
              match discResult with
              | .error _ => (fullAuthResult, [AuthEvent.discover, AuthEvent.fullAuth])
              | .ok _ =>
                  match refreshAccessToken now refreshResp rt c.clientId c.clientSecret with
                  | .ok c2 => (c2, [AuthEvent.discover, AuthEvent.refreshCall])
                  | .error _ =>
                      (fullAuthResult,
                       [AuthEvent.discover, AuthEvent.refreshCall, AuthEvent.fullAuth])
        | none => (fullAuthResult, [AuthEvent.fullAuth])
      else (c, [])

/-- Leading decimal digits of a character list, as a number. -/
def digitsVal (cs : List Char) : Option Nat :=
  let ds := cs.takeWhile Char.isDigit
  if ds.isEmpty then none
  else some (ds.foldl (fun a c => a * 10 + (c.toNat - 48)) 0)

/-- `parseInt(s, 10)`: skip leading whitespace, optional sign, then the
longest digit prefix; no digits means `NaN` (modelled as `none`). -/
def parseIntJS (s : String) : Option Int :=
  let cs := s.data.dropWhile Char.isWhitespace
  match cs with
  | '-' :: rest => (digitsVal rest).map (fun n => -(n : Int))
  | '+' :: rest => (digitsVal rest).map (fun n => (n : Int))
  | _ => (digitsVal cs).map (fun n => (n : Int))

/-- Outcome of `main` in `start-aggregator.ts`. -/
inductive MainResult
  | fatalExit (code : Nat)
  | running (st : AggState)

/-- Whether `main` terminated the process with a fatal exit. -/
def MainResult.isFatal : MainResult → Bool
  | .fatalExit _ => true
  | .running _ => false

/-- The port `main` will use: `process.argv[2] ? parseInt(process.argv[2],
10) : 3000` (an empty argument is falsy and yields the default); `none`
models `NaN`. -/
def effectivePort (portArg : Option String) : Option Int :=
  match portArg with
  | some s => if s = "" then some 3000 else parseIntJS s
  | none => some 3000

/-- `main` from `start-aggregator.ts`, through `AggregatorMCPServer.start`:
fatal exit 1 on a `NaN` port; otherwise load the config (silently empty on
parse error), connect each configured server with the given external
outcome, run the aggregation pass, then bind the listen endpoint.  A port
outside the valid socket range [0, 65536) makes `app.listen` throw
synchronously, rejecting `main()` into its `.catch` and `process.exit(1)`;
a failure to bind (e.g. address in use) raises an unhandled listen error
that crashes the process — both serve-phase paths are fatal.
`listenOutcome` is the environment's answer to binding a given port. -/
def mainRun (portArg : Option String) (raw : Except String (List ServerConfig))
    (connectOutcome : ServerConfig → Option ConnectedServer)
    (listenOutcome : Int → Except String Unit) : MainResult :=
  match effectivePort portArg with
  | none => MainResult.fatalExit 1
  | some p =>
      let st := initAggregator
        ((getAllServers (loadConfigs raw)).map
          (fun c => { config := c, connectResult := connectOutcome c }))
      if p < 0 ∨ 65536 ≤ p then MainResult.fatalExit 1
      else
        match listenOutcome p with
        | .error _ => MainResult.fatalExit 1
        | .ok _ => MainResult.running st

/-- A connected upstream exposing exactly one tool, one resource and one
prompt, all listings succeeding — the minimal configuration claim C1
quantifies over. -/
def soloConn (t : ToolInfo) (r : ResourceInfo) (p : PromptInfo) : ConnectedServer :=
  { hasTools := true
    toolsResult := .ok [t]
    hasResources := true
    resourcesResult := .ok [r]
    hasPrompts := true
    promptsResult := .ok [p] }

/-- An upstream input whose connection succeeds with `soloConn`. -/
def soloInput (sid sname : String) (tr : TransportConfig) (ca : Nat)
    (t : ToolInfo) (r : ResourceInfo) (p : PromptInfo) : UpstreamInput :=
  { config := { id := sid, name := sname, transport := tr, createdAt := ca }
    connectResult := some (soloConn t r p) }

/-! Concrete fixtures used by witness theorems. -/

def connW : ConnectedServer :=
  { callTool := fun n _ => "tool:" ++ n
    readResource := fun u => "res:" ++ u
    getPrompt := fun n _ => "prompt:" ++ n }

def stW : AggState :=
  { clients := [("alpha", connW)]
    tools := [("alpha__ping", toolEntry "alpha" "Alpha" { name := "ping" })]
    resources := [("alpha://file", resourceEntry "alpha" "Alpha" { uri := "file", name := "f" })]
    prompts := [("alpha__greet", promptEntry "alpha" "Alpha" { name := "greet" })] }

def connW2 : ConnectedServer :=
  { hasTools := true
    toolsResult := .ok [{ name := "ping" }]
    hasResources := true
    resourcesResult := .ok [{ uri := "file", name := "f" }]
    hasPrompts := true
    promptsResult := .ok [{ name := "greet" }] }

def cfgW1 : ServerConfig :=
  { id := "alpha", name := "Alpha", transport := .stdio "cmd" [] [], createdAt := 1 }

def cfgW2 : ServerConfig :=
  { id := "beta", name := "Beta", transport := .stdio "cmd" [] [], createdAt := 2 }

def serversW : List UpstreamInput :=
  [{ config := cfgW1, connectResult := some connW2 },
   { config := cfgW2, connectResult := none }]

def cW : StoredCredentials :=
  { clientId := "cid", accessToken := "old", refreshToken := some "rt",
    tokenType := "bearer", expiresAt := some 10 }

def mdW : OAuthMetadata := { token_endpoint := "te" }

def tdW : TokenResponse := { access_token := "new", token_type := "bearer" }

def faW : StoredCredentials :=
  { clientId := "fallback", accessToken := "fa", tokenType := "bearer" }

def c2W : StoredCredentials :=
  { clientId := "cid", accessToken := "new", refreshToken := some "rt",
    tokenType := "bearer" }

def tdW7 : TokenResponse :=
  { access_token := "na", token_type := "bearer", expires_in := some 60 }

def cW7 : StoredCredentials :=
  { clientId := "cid", clientSecret := some "sec", accessToken := "na",
    refreshToken := some "prior", tokenType := "bearer", expiresAt := some 67000 }

def cZ : StoredCredentials :=
  { clientId := "cid", accessToken := "tok", refreshToken := some "rt",
    tokenType := "bearer", expiresAt := some 0 }

def cE : StoredCredentials :=
  { clientId := "cid", accessToken := "tok", refreshToken := some "",
    tokenType := "bearer", expiresAt := some 10 }

def cA : ServerConfig :=
  { id := "a", name := "a", transport := .stdio "cmd" [] [], createdAt := 1,
    lastUsed := some 0 }

def cB : ServerConfig :=
  { id := "b", name := "b", transport := .stdio "cmd" [] [], createdAt := 2 }

/-! Helper lemmas about the embedding. -/

theorem strAppend_right_cancel {a b s : String} (h : a ++ s = b ++ s) : a = b := by
  have h2 : a.data ++ s.data = b.data ++ s.data := by
    simpa [String.data_append] using congrArg String.data h
  have h3 : a.data = b.data := List.append_cancel_right h2
  cases a; cases b; exact congrArg String.mk h3

theorem strAppend_ne {a b : String} (s t : String) (h : a ≠ b) :
    a ++ s ++ t ≠ b ++ s ++ t := by
  intro he
  exact h (strAppend_right_cancel (strAppend_right_cancel he))

theorem alookup_aset {α : Type} (m : List (String × α)) (k k2 : String) (v : α) :
    alookup (aset m k v) k2 = if k = k2 then some v else alookup m k2 := by
  induction m with
  | nil => by_cases h : k = k2 <;> simp [aset, alookup, h]
  | cons hd tl ih =>
      obtain ⟨k3, v3⟩ := hd
      by_cases h3 : k3 = k
      · by_cases h4 : k = k2 <;> simp [aset, alookup, h3, h4]
      · by_cases h4 : k3 = k2
        · have hk : ¬ k = k2 := fun he => h3 (h4.trans he.symm)
          have hk2 : ¬ k2 = k := fun he => hk he.symm
          simp [aset, alookup, h3, h4, hk, hk2]
        · simp [aset, alookup, h3, h4, ih]

theorem asetFold_cons {α β : Type} (key : β → String) (val : β → α)
    (m : List (String × α)) (x : β) (xs : List β) :
    asetFold key val m (x :: xs) = asetFold key val (aset m (key x) (val x)) xs := rfl

theorem alookup_asetFold_preserve {α β : Type} (key : β → String) (val : β → α)
    (xs : List β) (m : List (String × α)) (k : String)
    (h : (alookup m k).isSome = true) :
    (alookup (asetFold key val m xs) k).isSome = true := by
  induction xs generalizing m with
  | nil => simpa [asetFold] using h
  | cons x xs ih =>
      rw [asetFold_cons]
      apply ih
      rw [alookup_aset]
      by_cases hk : key x = k <;> simp [hk, h]

theorem alookup_asetFold_mem {α β : Type} (key : β → String) (val : β → α)
    (xs : List β) (m : List (String × α)) {x : β} (hx : x ∈ xs) :
    (alookup (asetFold key val m xs) (key x)).isSome = true := by
  induction xs generalizing m with
  | nil => cases hx
  | cons y ys ih =>
      rw [asetFold_cons]
      cases hx with
      | head =>
          apply alookup_asetFold_preserve
          rw [alookup_aset]; simp
      | tail _ hmem => exact ih _ hmem

theorem stepTools_clients (sid sn : String) (conn : ConnectedServer) (st : AggState) :
    (stepTools sid sn conn st).clients = st.clients := by
  unfold stepTools; split
  · split <;> rfl
  · rfl

theorem stepTools_resources (sid sn : String) (conn : ConnectedServer) (st : AggState) :
    (stepTools sid sn conn st).resources = st.resources := by
  unfold stepTools; split
  · split <;> rfl
  · rfl

theorem stepTools_prompts (sid sn : String) (conn : ConnectedServer) (st : AggState) :
    (stepTools sid sn conn st).prompts = st.prompts := by
  unfold stepTools; split
  · split <;> rfl
  · rfl

theorem stepTools_failLogs (sid sn : String) (conn : ConnectedServer) (st : AggState) :
    (stepTools sid sn conn st).failLogs = st.failLogs := by
  unfold stepTools; split
  · split <;> rfl
  · rfl

theorem stepResources_clients (sid sn : String) (conn : ConnectedServer) (st : AggState) :
    (stepResources sid sn conn st).clients = st.clients := by
  unfold stepResources; split
  · split <;> rfl
  · rfl

theorem stepResources_tools (sid sn : String) (conn : ConnectedServer) (st : AggState) :
    (stepResources sid sn conn st).tools = st.tools := by
  unfold stepResources; split
  · split <;> rfl
  · rfl

theorem stepResources_prompts (sid sn : String) (conn : ConnectedServer) (st : AggState) :
    (stepResources sid sn conn st).prompts = st.prompts := by
  unfold stepResources; split
  · split <;> rfl
  · rfl

theorem stepResources_failLogs (sid sn : String) (conn : ConnectedServer) (st : AggState) :
    (stepResources sid sn conn st).failLogs = st.failLogs := by
  unfold stepResources; split
  · split <;> rfl
  · rfl

theorem stepPrompts_clients (sid sn : String) (conn : ConnectedServer) (st : AggState) :
    (stepPrompts sid sn conn st).clients = st.clients := by
  unfold stepPrompts; split
  · split <;> rfl
  · rfl

theorem stepPrompts_tools (sid sn : String) (conn : ConnectedServer) (st : AggState) :
    (stepPrompts sid sn conn st).tools = st.tools := by
  unfold stepPrompts; split
  · split <;> rfl
  · rfl

theorem stepPrompts_resources (sid sn : String) (conn : ConnectedServer) (st : AggState) :
    (stepPrompts sid sn conn st).resources = st.resources := by
  unfold stepPrompts; split
  · split <;> rfl
  · rfl

theorem stepPrompts_failLogs (sid sn : String) (conn : ConnectedServer) (st : AggState) :
    (stepPrompts sid sn conn st).failLogs = st.failLogs := by
  unfold stepPrompts; split
  · split <;> rfl
  · rfl

theorem stepTools_tools_preserve (sid sn : String) (conn : ConnectedServer)
    (st : AggState) (k : String) (h : (alookup st.tools k).isSome = true) :
    (alookup (stepTools sid sn conn st).tools k).isSome = true := by
  unfold stepTools; split
  · split
    · exact alookup_asetFold_preserve _ _ _ _ _ h
    · simpa using h
  · simpa using h

theorem stepResources_resources_preserve (sid sn : String) (conn : ConnectedServer)
    (st : AggState) (k : String) (h : (alookup st.resources k).isSome = true) :
    (alookup (stepResources sid sn conn st).resources k).isSome = true := by
  unfold stepResources; split
  · split
    · exact alookup_asetFold_preserve _ _ _ _ _ h
    · simpa using h
  · simpa using h

theorem stepPrompts_prompts_preserve (sid sn : String) (conn : ConnectedServer)
    (st : AggState) (k : String) (h : (alookup st.prompts k).isSome = true) :
    (alookup (stepPrompts sid sn conn st).prompts k).isSome = true := by
  unfold stepPrompts; split
  · split
    · exact alookup_asetFold_preserve _ _ _ _ _ h
    · simpa using h
  · simpa using h

theorem stepTools_tools_mem (sid sn : String) (conn : ConnectedServer) (st : AggState)
    (hcap : conn.hasTools = true) (ts : List ToolInfo)
    (hok : conn.toolsResult = Except.ok ts) {t : ToolInfo} (ht : t ∈ ts) :
    (alookup (stepTools sid sn conn st).tools (toolKey sid t)).isSome = true := by
  unfold stepTools
  rw [hcap, hok]
  simpa using alookup_asetFold_mem (toolKey sid) (toolEntry sid sn) ts st.tools ht

theorem stepResources_resources_mem (sid sn : String) (conn : ConnectedServer)
    (st : AggState) (hcap : conn.hasResources = true) (rs : List ResourceInfo)
    (hok : conn.resourcesResult = Except.ok rs) {r : ResourceInfo} (hr : r ∈ rs) :
    (alookup (stepResources sid sn conn st).resources (resourceKey sid r)).isSome = true := by
  unfold stepResources
  rw [hcap, hok]
  simpa using alookup_asetFold_mem (resourceKey sid) (resourceEntry sid sn) rs st.resources hr

theorem stepPrompts_prompts_mem (sid sn : String) (conn : ConnectedServer)
    (st : AggState) (hcap : conn.hasPrompts = true) (ps : List PromptInfo)
    (hok : conn.promptsResult = Except.ok ps) {p : PromptInfo} (hp : p ∈ ps) :
    (alookup (stepPrompts sid sn conn st).prompts (promptKey sid p)).isSome = true := by
  unfold stepPrompts
  rw [hcap, hok]
  simpa using alookup_asetFold_mem (promptKey sid) (promptEntry sid sn) ps st.prompts hp

theorem processServer_failLogs (st : AggState) (inp : UpstreamInput) :
    (processServer st inp).failLogs =
      st.failLogs ++ (if inp.connectResult.isNone then [inp.config.id] else []) := by
  cases h : inp.connectResult with
  | none => simp [processServer, h]
  | some conn =>
      simp [processServer, h, stepPrompts_failLogs, stepResources_failLogs, stepTools_failLogs]

theorem processServer_clients_preserve (st : AggState) (inp : UpstreamInput) (k : String)
    (h : (alookup st.clients k).isSome = true) :
    (alookup (processServer st inp).clients k).isSome = true := by
  cases hc : inp.connectResult with
  | none => simpa [processServer, hc] using h
  | some conn =>
      simp only [processServer, hc, stepPrompts_clients, stepResources_clients,
        stepTools_clients]
      rw [alookup_aset]
      by_cases hk : inp.config.id = k <;> simp [hk, h]

theorem processServer_clients_mem (st : AggState) (inp : UpstreamInput)
    (conn : ConnectedServer) (hc : inp.connectResult = some conn) :
    (alookup (processServer st inp).clients inp.config.id).isSome = true := by
  simp only [processServer, hc, stepPrompts_clients, stepResources_clients,
    stepTools_clients]
  rw [alookup_aset]; simp

theorem processServer_tools_preserve (st : AggState) (inp : UpstreamInput) (k : String)
    (h : (alookup st.tools k).isSome = true) :
    (alookup (processServer st inp).tools k).isSome = true := by
  cases hc : inp.connectResult with
  | none => simpa [processServer, hc] using h
  | some conn =>
      simp only [processServer, hc, stepPrompts_tools, stepResources_tools]
      apply stepTools_tools_preserve
      simpa using h

theorem processServer_tools_mem (st : AggState) (inp : UpstreamInput)
    (conn : ConnectedServer) (hc : inp.connectResult = some conn)
    (hcap : conn.hasTools = true) (ts : List ToolInfo)
    (hok : conn.toolsResult = Except.ok ts) {t : ToolInfo} (ht : t ∈ ts) :
    (alookup (processServer st inp).tools (toolKey inp.config.id t)).isSome = true := by
  simp only [processServer, hc, stepPrompts_tools, stepResources_tools]
  exact stepTools_tools_mem _ _ _ _ hcap ts hok ht

theorem processServer_resources_preserve (st : AggState) (inp : UpstreamInput) (k : String)
    (h : (alookup st.resources k).isSome = true) :
    (alookup (processServer st inp).resources k).isSome = true := by
  cases hc : inp.connectResult with
  | none => simpa [processServer, hc] using h
  | some conn =>
      simp only [processServer, hc, stepPrompts_resources]
      apply stepResources_resources_preserve
      rw [stepTools_resources]
      simpa using h

theorem processServer_resources_mem (st : AggState) (inp : UpstreamInput)
    (conn : ConnectedServer) (hc : inp.connectResult = some conn)
    (hcap : conn.hasResources = true) (rs : List ResourceInfo)
    (hok : conn.resourcesResult = Except.ok rs) {r : ResourceInfo} (hr : r ∈ rs) :
    (alookup (processServer st inp).resources (resourceKey inp.config.id r)).isSome = true := by
  simp only [processServer, hc, stepPrompts_resources]
  exact stepResources_resources_mem _ _ _ _ hcap rs hok hr

theorem processServer_prompts_preserve (st : AggState) (inp : UpstreamInput) (k : String)
    (h : (alookup st.prompts k).isSome = true) :
    (alookup (processServer st inp).prompts k).isSome = true := by
  cases hc : inp.connectResult with
  | none => simpa [processServer, hc] using h
  | some conn =>
      simp only [processServer, hc]
      apply stepPrompts_prompts_preserve
      rw [stepResources_prompts, stepTools_prompts]
      simpa using h

theorem processServer_prompts_mem (st : AggState) (inp : UpstreamInput)
    (conn : ConnectedServer) (hc : inp.connectResult = some conn)
    (hcap : conn.hasPrompts = true) (ps : List PromptInfo)
    (hok : conn.promptsResult = Except.ok ps) {p : PromptInfo} (hp : p ∈ ps) :
    (alookup (processServer st inp).prompts (promptKey inp.config.id p)).isSome = true := by
  simp only [processServer, hc]
  exact stepPrompts_prompts_mem _ _ _ _ hcap ps hok hp

theorem foldl_processServer_preserve {P : AggState → Prop}
    (hstep : ∀ st inp, P st → P (processServer st inp)) :
    ∀ (l : List UpstreamInput) (st : AggState), P st → P (l.foldl processServer st)
  | [], _, h => h
  | x :: xs, st, h => foldl_processServer_preserve hstep xs _ (hstep st x h)

theorem foldl_processServer_mem {P : AggState → Prop}
    (hstep : ∀ st inp, P st → P (processServer st inp))
    {inp : UpstreamInput} (hest : ∀ st, P (processServer st inp)) :
    ∀ (l : List UpstreamInput) (st : AggState), inp ∈ l → P (l.foldl processServer st) := by
  intro l
  induction l with
  | nil => intro st h; cases h
  | cons y ys ih =>
      intro st h
      cases h with
      | head => exact foldl_processServer_preserve hstep ys _ (hest st)
      | tail _ hmem => exact ih _ hmem

theorem foldl_processServer_failLogs :
    ∀ (l : List UpstreamInput) (st : AggState),
      (l.foldl processServer st).failLogs.length =
        st.failLogs.length + l.countP (fun i => i.connectResult.isNone)
  | [], st => by simp
  | x :: xs, st => by
      rw [List.foldl_cons, foldl_processServer_failLogs xs, processServer_failLogs,
        List.countP_cons]
      by_cases h : x.connectResult.isNone
      · simp [h]
        omega
      · simp [h]

/-! Claim theorems. -/

/-- C6: for every upstream descriptor whose transport kind is websocket,
`connect` fails fast with the unsupported-transport error, performing no
side effect at all (empty effect trace: no connection attempt, network call
or authentication step). -/
theorem connect_websocket_unsupported (url : String) (headers : List (String × String)) :
    connect (TransportConfig.websocket url headers) =
      ([], Except.error "WebSocket transport not yet implemented") := rfl

/-- C3: a request whose namespaced identifier is absent from the registry
(tool call, resource read, or prompt get alike) returns a protocol-level
not-found error rather than crashing, and leaves the gateway state
untouched. -/
theorem unknown_entry_error (st : AggState) (nm uri pnm : String)
    (args pargs : Option Args) :
    (alookup st.tools nm = none →
      handleCallTool st nm args = (Except.error ("Tool not found: " ++ nm), st)) ∧
    (alookup st.resources uri = none →
      handleReadResource st uri = (Except.error ("Resource not found: " ++ uri), st)) ∧
    (alookup st.prompts pnm = none →
      handleGetPrompt st pnm pargs = (Except.error ("Prompt not found: " ++ pnm), st)) := by
  refine ⟨fun h => ?_, fun h => ?_, fun h => ?_⟩
  · simp [handleCallTool, h]
  · simp [handleReadResource, h]
  · simp [handleGetPrompt, h]

/-- Witness for C3: concrete unknown identifiers against the empty state. -/
theorem unknown_entry_error_witness :
    handleCallTool {} "missing__tool" none
      = (Except.error "Tool not found: missing__tool", {}) ∧
    handleReadResource {} "missing://uri"
      = (Except.error "Resource not found: missing://uri", {}) ∧
    handleGetPrompt {} "missing__prompt" none
      = (Except.error "Prompt not found: missing__prompt", {}) := by
  have h := unknown_entry_error {} "missing__tool" "missing://uri" "missing__prompt" none none
  exact ⟨h.1 rfl, h.2.1 rfl, h.2.2 rfl⟩

/-- C5: a request whose namespaced identifier resolves to a registry entry
with a live owning connection is forwarded using the entry's original
identifier and the caller-supplied arguments verbatim, and the upstream's
result is returned unchanged; the gateway state is untouched. -/
theorem dispatch_forwards_verbatim (st : AggState) (nm uri pnm : String)
    (args : Args) (pargs : Option Args)
    (tool : AggregatedTool) (res : AggregatedResource) (p : AggregatedPrompt)
    (ct cr cp : ConnectedServer) :
    (alookup st.tools nm = some tool →
      alookup st.clients tool.serverId = some ct →
      handleCallTool st nm (some args) =
        (Except.ok (ct.callTool tool.originalName args), st)) ∧
    (alookup st.resources uri = some res →
      alookup st.clients res.serverId = some cr →
      handleReadResource st uri =
        (Except.ok (cr.readResource res.originalUri), st)) ∧
    (alookup st.prompts pnm = some p →
      alookup st.clients p.serverId = some cp →
      handleGetPrompt st pnm pargs =
        (Except.ok (cp.getPrompt p.originalName pargs), st)) := by
  refine ⟨fun h1 h2 => ?_, fun h1 h2 => ?_, fun h1 h2 => ?_⟩
  · simp [handleCallTool, h1, h2]
  · simp [handleReadResource, h1, h2]
  · simp [handleGetPrompt, h1, h2]

/-- Witness for C5: a one-upstream registry; the call reaches the upstream
with the original (un-namespaced) identifier and the exact arguments. -/
theorem dispatch_forwards_verbatim_witness :
    handleCallTool stW "alpha__ping" (some [("x", "1")]) =
      (Except.ok (connW.callTool "ping" [("x", "1")]), stW) ∧
    handleReadResource stW "alpha://file" =
      (Except.ok (connW.readResource "file"), stW) ∧
    handleGetPrompt stW "alpha__greet" none =
      (Except.ok (connW.getPrompt "greet" none), stW) := by
  have h := dispatch_forwards_verbatim stW "alpha__ping" "alpha://file" "alpha__greet"
    [("x", "1")] none
    (toolEntry "alpha" "Alpha" { name := "ping" })
    (resourceEntry "alpha" "Alpha" { uri := "file", name := "f" })
    (promptEntry "alpha" "Alpha" { name := "greet" })
    connW connW connW
  exact ⟨h.1 rfl rfl, h.2.1 rfl rfl, h.2.2 rfl rfl⟩

/-- C7 counterexample: a refresh response that includes `expires_in` with
value `0` produces a credential with NO expiry (`expires_in` is falsy in
JavaScript), while the claim predicts expiry at the time of the call plus
zero seconds. -/
theorem refreshAccessToken_counterexample :
    (refreshAccessToken 5000
        (Except.ok { access_token := "a2", refresh_token := some "r2",
                     token_type := "bearer", expires_in := some 0 })
        "r1" "cid" none).map (fun c => c.expiresAt) = Except.ok none ∧
    claimExpiresAtC7 5000
        { access_token := "a2", refresh_token := some "r2",
          token_type := "bearer", expires_in := some 0 } = some 5000 ∧
    (some 5000 : Option Nat) ≠ none := by
  refine ⟨rfl, rfl, by decide⟩

/-- C7 amended: on refresh success the credential carries the response's
refresh token when present and nonempty and otherwise retains the prior
refresh token supplied to the call; `expiresAt` equals the call time plus
`expires_in` seconds when the response includes a NONZERO `expires_in`, and
is absent when `expires_in` is absent or zero. -/
theorem refreshAccessToken_fields (now : Nat) (td : TokenResponse)
    (rt cid : String) (cs : Option String) (c : StoredCredentials)
    (h : refreshAccessToken now (Except.ok td) rt cid cs = Except.ok c) :
    c.accessToken = td.access_token ∧ c.clientId = cid ∧ c.clientSecret = cs ∧
    c.tokenType = td.token_type ∧
    (∀ s, td.refresh_token = some s → s ≠ "" → c.refreshToken = some s) ∧
    ((td.refresh_token = none ∨ td.refresh_token = some "") →
      c.refreshToken = some rt) ∧
    (∀ s, td.expires_in = some s → s ≠ 0 → c.expiresAt = some (now + s * 1000)) ∧
    ((td.expires_in = none ∨ td.expires_in = some 0) → c.expiresAt = none) := by
  simp only [refreshAccessToken, Except.ok.injEq] at h
  subst h
  refine ⟨rfl, rfl, rfl, rfl, ?_, ?_, ?_, ?_⟩
  · intro s hs hne; simp [hs, hne]
  · intro hcase
    rcases hcase with h0 | h0 <;> simp [h0]
  · intro s hs hne; simp [hs, hne]
  · intro hcase
    rcases hcase with h0 | h0 <;> simp [h0]

/-- Witness for C7 amended: response omits a refresh token and carries
`expires_in := 60`, so the prior refresh token is retained and the expiry is
the call time plus 60 seconds. -/
theorem refreshAccessToken_fields_witness :
    cW7.refreshToken = some "prior" ∧ cW7.expiresAt = some 67000 := by
  have h := refreshAccessToken_fields 7000 tdW7 "prior" "cid" (some "sec") cW7 rfl
  refine ⟨h.2.2.2.2.2.1 (Or.inl rfl), ?_⟩
  have h2 := h.2.2.2.2.2.2.1 60 rfl (by decide)
  simpa using h2

/-- C8 counterexample: with a valid port argument, a bindable endpoint and a
malformed configuration file, the process does NOT exit fatally —
`ServerConfigManager.load` silently falls back to an empty server list, so
the gateway runs with an empty registry (warning logged), contradicting the
claim that a malformed configuration is process-fatal. -/
theorem mainRun_config_counterexample :
    (mainRun (some "3000") (Except.error "Unexpected token in JSON")
        (fun _ => none) (fun _ => Except.ok ())).isFatal = false ∧
    mainRun (some "3000") (Except.error "Unexpected token in JSON")
        (fun _ => none) (fun _ => Except.ok ())
      = MainResult.running { warnedNoServers := true } := ⟨rfl, rfl⟩

/-- C8 amended: the process exits fatally (code 1) exactly on a startup
port/listen failure: a non-empty port argument parsing to NaN, an effective
port outside the valid socket range [0, 65536) (the listen call throws), or
a failure to bind the listen endpoint (the unhandled listen error crashes
the process).  A malformed or unreadable configuration file never causes a
fatal exit (it silently yields an empty server list), and no per-upstream
failure does either. -/
theorem mainRun_fatal_iff (portArg : Option String)
    (raw : Except String (List ServerConfig))
    (oracle : ServerConfig → Option ConnectedServer)
    (bindPort : Int → Except String Unit) :
    (mainRun portArg raw oracle bindPort).isFatal = true ↔
      ((∃ s, portArg = some s ∧ s ≠ "" ∧ parseIntJS s = none) ∨
       (∃ p, effectivePort portArg = some p ∧ (p < 0 ∨ 65536 ≤ p)) ∨
       (∃ p e, effectivePort portArg = some p ∧ 0 ≤ p ∧ p < 65536 ∧
          bindPort p = Except.error e)) := by
  cases hep : effectivePort portArg with
  | none =>
      have hex : ∃ s, portArg = some s ∧ s ≠ "" ∧ parseIntJS s = none := by
        cases hpa : portArg with
        | none => rw [hpa] at hep; simp [effectivePort] at hep
        | some s =>
            by_cases hs : s = ""
            · rw [hpa, hs] at hep; simp [effectivePort] at hep
            · refine ⟨s, rfl, hs, ?_⟩
              rw [hpa] at hep
              simpa [effectivePort, hs] using hep
      have hrun : mainRun portArg raw oracle bindPort = MainResult.fatalExit 1 := by
        simp [mainRun, hep]
      rw [hrun]
      simp only [MainResult.isFatal, true_iff]
      exact Or.inl hex
  | some p =>
      have hnotnan : ¬ ∃ s, portArg = some s ∧ s ≠ "" ∧ parseIntJS s = none := by
        rintro ⟨s, hps, hsne, hnone⟩
        rw [hps] at hep
        simp [effectivePort, hsne, hnone] at hep
      by_cases hr : p < 0 ∨ 65536 ≤ p
      · have hrun : mainRun portArg raw oracle bindPort = MainResult.fatalExit 1 := by
          simp [mainRun, hep, hr]
        rw [hrun]
        simp only [MainResult.isFatal, true_iff]
        exact Or.inr (Or.inl ⟨p, rfl, hr⟩)
      · cases hl : bindPort p with
        | error e =>
            have hrun : mainRun portArg raw oracle bindPort = MainResult.fatalExit 1 := by
              simp [mainRun, hep, hr, hl]
            rw [hrun]
            simp only [MainResult.isFatal, true_iff]
            exact Or.inr (Or.inr ⟨p, e, rfl, by omega, by omega, hl⟩)
        | ok u =>
            have hrun : mainRun portArg raw oracle bindPort
                = MainResult.running (initAggregator
                    ((getAllServers (loadConfigs raw)).map
                      (fun c => { config := c, connectResult := oracle c }))) := by
              simp [mainRun, hep, hr, hl]
            rw [hrun]
            constructor
            · intro hfalse
              simp [MainResult.isFatal] at hfalse
            · rintro (hnan | ⟨q, hq, hqr⟩ | ⟨q, e, hq, hq0, hq1, hqe⟩)
              · exact absurd hnan hnotnan
              · injection hq with hq2
                subst hq2
                exact absurd hqr hr
              · injection hq with hq2
                subst hq2
                rw [hqe] at hl
                cases hl

/-- Witness for C8 amended: a non-numeric port argument is fatal, and so is
a numeric but out-of-range one (the listen call throws on `-1`). -/
theorem mainRun_fatal_iff_witness :
    (mainRun (some "abc") (Except.ok []) (fun _ => none)
        (fun _ => Except.ok ())).isFatal = true ∧
    (mainRun (some "-1") (Except.ok []) (fun _ => none)
        (fun _ => Except.ok ())).isFatal = true := by
  constructor
  · exact (mainRun_fatal_iff (some "abc") (Except.ok []) (fun _ => none)
      (fun _ => Except.ok ())).mpr (Or.inl ⟨"abc", rfl, by decide, rfl⟩)
  · exact (mainRun_fatal_iff (some "-1") (Except.ok []) (fun _ => none)
      (fun _ => Except.ok ())).mpr (Or.inr (Or.inl ⟨-1, rfl, Or.inl (by decide)⟩))

instance : IsTotal ServerConfig serverLe := ⟨by
  intro a b
  simp only [serverLe, serverCmp]
  cases h1 : luKey a <;> cases h2 : luKey b <;> simp <;> omega⟩

instance : IsTrans ServerConfig serverLe := ⟨by
  intro a b c hab hbc
  simp only [serverLe, serverCmp] at hab hbc ⊢
  cases h1 : luKey a <;> cases h2 : luKey b <;> cases h3 : luKey c <;>
      simp only [h1, h2, h3] at hab hbc ⊢ <;> omega⟩

theorem serverLe_imp_claimOrder (a b : ServerConfig) (h : serverLe a b) :
    claimOrder a b := by
  simp only [serverLe, serverCmp] at h
  simp only [claimOrder]
  cases h1 : luKey a <;> cases h2 : luKey b <;> simp only [h1, h2] at h ⊢ <;> omega

/-- C9 amended: `getAllServers` returns all configured servers, ordered so
that every server with a TRUTHY (present and nonzero) `lastUsed` precedes
every server without one; among truthy-`lastUsed` servers the more recently
used comes first; among the rest the more recently created comes first.  The
original claim reads mere presence of `lastUsed`, which fails at
`lastUsed = 0` (falsy in the JavaScript comparator). -/
theorem getAllServers_ordered (servers : List (String × ServerConfig)) :
    (getAllServers servers).Perm (servers.map Prod.snd) ∧
    List.Pairwise claimOrder (getAllServers servers) := by
  constructor
  · exact List.perm_insertionSort serverLe (servers.map Prod.snd)
  · exact List.Pairwise.imp (fun h => serverLe_imp_claimOrder _ _ h)
      (List.sorted_insertionSort serverLe (servers.map Prod.snd))

/-- C9 counterexample: server `cA` HAS a `lastUsed` timestamp (value `0`)
and `cB` has none, yet `getAllServers` places `cB` before `cA` (the
comparator treats `0` as absent), so the claimed ordering — every server
with a `lastUsed` timestamp precedes every server without one — fails. -/
theorem getAllServers_counterexample :
    cA.lastUsed = some 0 ∧ cB.lastUsed = none ∧
    getAllServers (loadConfigs (Except.ok [cA, cB])) = [cB, cA] ∧
    specOrderC9 cB cA = false ∧
    ¬ List.Pairwise (fun x y => specOrderC9 x y = true)
        (getAllServers (loadConfigs (Except.ok [cA, cB]))) := by
  refine ⟨rfl, rfl, by decide, rfl, ?_⟩
  intro hpair
  rw [show getAllServers (loadConfigs (Except.ok [cA, cB])) = [cB, cA] by decide] at hpair
  have hfirst := (List.pairwise_cons.mp hpair).1 cA (by simp)
  simp [specOrderC9, cA, cB] at hfirst

/-- C2: the aggregation pass is total (it returns a state rather than
aborting) for every mix of successful and failed upstream connections;
it logs exactly one connect failure per failed upstream; every upstream
that connected has its client registered; every capability successfully
listed by a connected upstream is present in the registry under its
namespaced key (union of the successes); and zero configured upstreams
yields a warning with an empty registry, not an abort. -/
theorem initAggregator_partial_failure (servers : List UpstreamInput) :
    (initAggregator servers).failLogs.length
        = servers.countP (fun i => i.connectResult.isNone) ∧
    (∀ inp ∈ servers, ∀ conn : ConnectedServer, inp.connectResult = some conn →
      (alookup (initAggregator servers).clients inp.config.id).isSome = true) ∧
    (∀ inp ∈ servers, ∀ conn : ConnectedServer, inp.connectResult = some conn →
      conn.hasTools = true → ∀ ts, conn.toolsResult = Except.ok ts →
      ∀ t ∈ ts,
        (alookup (initAggregator servers).tools (toolKey inp.config.id t)).isSome = true) ∧
    (∀ inp ∈ servers, ∀ conn : ConnectedServer, inp.connectResult = some conn →
      conn.hasResources = true → ∀ rs, conn.resourcesResult = Except.ok rs →
      ∀ r ∈ rs,
        (alookup (initAggregator servers).resources (resourceKey inp.config.id r)).isSome
          = true) ∧
    (∀ inp ∈ servers, ∀ conn : ConnectedServer, inp.connectResult = some conn →
      conn.hasPrompts = true → ∀ ps, conn.promptsResult = Except.ok ps →
      ∀ p ∈ ps,
        (alookup (initAggregator servers).prompts (promptKey inp.config.id p)).isSome
          = true) ∧
    initAggregator [] = { warnedNoServers := true } := by
  by_cases hs : servers.isEmpty
  · have hnil : servers = [] := List.isEmpty_iff.mp hs
    subst hnil
    refine ⟨by simp [initAggregator], ?_, ?_, ?_, ?_, rfl⟩ <;>
      intro inp hmem <;> cases hmem
  · have hinit : initAggregator servers = servers.foldl processServer {} := by
      simp [initAggregator, hs]
    rw [hinit]
    refine ⟨?_, ?_, ?_, ?_, ?_, rfl⟩
    · rw [foldl_processServer_failLogs]
      simp
    · intro inp hmem conn hc
      exact foldl_processServer_mem
        (fun st i h => processServer_clients_preserve st i _ h)
        (fun st => processServer_clients_mem st inp conn hc) servers {} hmem
    · intro inp hmem conn hc hcap ts hok t ht
      exact foldl_processServer_mem
        (fun st i h => processServer_tools_preserve st i _ h)
        (fun st => processServer_tools_mem st inp conn hc hcap ts hok ht) servers {} hmem
    · intro inp hmem conn hc hcap rs hok r hr
      exact foldl_processServer_mem
        (fun st i h => processServer_resources_preserve st i _ h)
        (fun st => processServer_resources_mem st inp conn hc hcap rs hok hr) servers {} hmem
    · intro inp hmem conn hc hcap ps hok p hp
      exact foldl_processServer_mem
        (fun st i h => processServer_prompts_preserve st i _ h)
        (fun st => processServer_prompts_mem st inp conn hc hcap ps hok hp) servers {} hmem

/-- Witness for C2: two configured upstreams, one connects (exposing one of
each capability) and one fails: exactly one failure log, the successful
client registered, all three namespaced capabilities present. -/
theorem initAggregator_partial_failure_witness :
    (initAggregator serversW).failLogs.length = 1 ∧
    (alookup (initAggregator serversW).clients "alpha").isSome = true ∧
    (alookup (initAggregator serversW).tools "alpha__ping").isSome = true ∧
    (alookup (initAggregator serversW).resources "alpha://file").isSome = true ∧
    (alookup (initAggregator serversW).prompts "alpha__greet").isSome = true := by
  have h := initAggregator_partial_failure serversW
  have hmem : ({ config := cfgW1, connectResult := some connW2 } : UpstreamInput) ∈ serversW :=
    List.mem_cons_self _ _
  refine ⟨?_, ?_, ?_, ?_, ?_⟩
  · rw [h.1]; rfl
  · exact h.2.1 _ hmem connW2 rfl
  · exact h.2.2.1 _ hmem connW2 rfl rfl [{ name := "ping" }] rfl { name := "ping" } (by simp)
  · exact h.2.2.2.1 _ hmem connW2 rfl rfl [{ uri := "file", name := "f" }] rfl
      { uri := "file", name := "f" } (by simp)
  · exact h.2.2.2.2.1 _ hmem connW2 rfl rfl [{ name := "greet" }] rfl
      { name := "greet" } (by simp)

/-- C1: two configured upstreams with distinct ids, each exposing an
operation (and a prompt) with the same original name and a resource with the
same original URI, end up with two distinct registry entries per category —
keyed `id__name` for tools/prompts and `id://uri` for resources — and each
entry records its own upstream id and original identifier, which resolve
back (via the client map) to its own upstream connection. -/
theorem aggregate_distinct_upstreams
    (id1 id2 n1 n2 nm pnm uri : String) (hid : id1 ≠ id2)
    (t1 t2 : ToolInfo) (ht1 : t1.name = nm) (ht2 : t2.name = nm)
    (p1 p2 : PromptInfo) (hp1 : p1.name = pnm) (hp2 : p2.name = pnm)
    (r1 r2 : ResourceInfo) (hr1 : r1.uri = uri) (hr2 : r2.uri = uri)
    (tr1 tr2 : TransportConfig) (ca1 ca2 : Nat)
    (st : AggState)
    (hst : st = initAggregator [soloInput id1 n1 tr1 ca1 t1 r1 p1,
                                soloInput id2 n2 tr2 ca2 t2 r2 p2]) :
    (id1 ++ "__" ++ nm ≠ id2 ++ "__" ++ nm) ∧
    alookup st.tools (id1 ++ "__" ++ nm) = some (toolEntry id1 n1 t1) ∧
    alookup st.tools (id2 ++ "__" ++ nm) = some (toolEntry id2 n2 t2) ∧
    (toolEntry id1 n1 t1).serverId = id1 ∧ (toolEntry id1 n1 t1).originalName = nm ∧
    (toolEntry id2 n2 t2).serverId = id2 ∧ (toolEntry id2 n2 t2).originalName = nm ∧
    alookup st.clients (toolEntry id1 n1 t1).serverId = some (soloConn t1 r1 p1) ∧
    alookup st.clients (toolEntry id2 n2 t2).serverId = some (soloConn t2 r2 p2) ∧
    (id1 ++ "__" ++ pnm ≠ id2 ++ "__" ++ pnm) ∧
    alookup st.prompts (id1 ++ "__" ++ pnm) = some (promptEntry id1 n1 p1) ∧
    alookup st.prompts (id2 ++ "__" ++ pnm) = some (promptEntry id2 n2 p2) ∧
    (promptEntry id1 n1 p1).serverId = id1 ∧ (promptEntry id1 n1 p1).originalName = pnm ∧
    (promptEntry id2 n2 p2).serverId = id2 ∧ (promptEntry id2 n2 p2).originalName = pnm ∧
    (id1 ++ "://" ++ uri ≠ id2 ++ "://" ++ uri) ∧
    alookup st.resources (id1 ++ "://" ++ uri) = some (resourceEntry id1 n1 r1) ∧
    alookup st.resources (id2 ++ "://" ++ uri) = some (resourceEntry id2 n2 r2) ∧
    (resourceEntry id1 n1 r1).serverId = id1 ∧ (resourceEntry id1 n1 r1).originalUri = uri ∧
    (resourceEntry id2 n2 r2).serverId = id2 ∧ (resourceEntry id2 n2 r2).originalUri = uri := by
  subst hst
  have hkt : ¬ (id1 ++ "__" ++ nm = id2 ++ "__" ++ nm) := strAppend_ne _ _ hid
  have hkp : ¬ (id1 ++ "__" ++ pnm = id2 ++ "__" ++ pnm) := strAppend_ne _ _ hid
  have hkr : ¬ (id1 ++ "://" ++ uri = id2 ++ "://" ++ uri) := strAppend_ne _ _ hid
  refine ⟨hkt, ?_, ?_, rfl, by simp [toolEntry, ht1], rfl, by simp [toolEntry, ht2],
    ?_, ?_, hkp, ?_, ?_, rfl, by simp [promptEntry, hp1], rfl, by simp [promptEntry, hp2],
    hkr, ?_, ?_, rfl, by simp [resourceEntry, hr1], rfl, by simp [resourceEntry, hr2]⟩ <;>
    simp [initAggregator, processServer, stepTools, stepResources, stepPrompts,
      soloInput, soloConn, asetFold, aset, alookup, toolKey, promptKey, resourceKey,
      toolEntry, promptEntry, resourceEntry,
      ht1, ht2, hp1, hp2, hr1, hr2, hkt, hkp, hkr, hid]

/-- Witness for C1: the end-to-end scenario of spec section 8 — upstreams
"alpha" and "beta" both exposing operation "ping" — yields both `alpha__ping`
and `beta__ping`, each mapped to its own upstream. -/
theorem aggregate_distinct_upstreams_witness :
    alookup (initAggregator [soloInput "alpha" "A" (.stdio "c" [] []) 1
          { name := "ping" } { uri := "file", name := "f" } { name := "greet" },
        soloInput "beta" "B" (.stdio "c" [] []) 2
          { name := "ping" } { uri := "file", name := "f" } { name := "greet" }]).tools
      ("alpha" ++ "__" ++ "ping") = some (toolEntry "alpha" "A" { name := "ping" }) ∧
    alookup (initAggregator [soloInput "alpha" "A" (.stdio "c" [] []) 1
          { name := "ping" } { uri := "file", name := "f" } { name := "greet" },
        soloInput "beta" "B" (.stdio "c" [] []) 2
          { name := "ping" } { uri := "file", name := "f" } { name := "greet" }]).tools
      ("beta" ++ "__" ++ "ping") = some (toolEntry "beta" "B" { name := "ping" }) := by
  have h := aggregate_distinct_upstreams "alpha" "beta" "A" "B" "ping" "greet" "file"
    (by decide) { name := "ping" } { name := "ping" } rfl rfl
    { name := "greet" } { name := "greet" } rfl rfl
    { uri := "file", name := "f" } { uri := "file", name := "f" } rfl rfl
    (.stdio "c" [] []) (.stdio "c" [] []) 1 2 _ rfl
  exact ⟨h.2.1, h.2.2.1⟩

/-- C4 counterexample: the expiry guard is
`credentials.expiresAt && credentials.expiresAt < Date.now()` and the
refresh-token guard is `if (credentials.refreshToken)`, both JavaScript
truthiness tests.  So a stored credential whose `expiresAt` is `0` — in the
past of any positive `now` — is returned AS-IS with zero network actions,
and a credential with a present-but-empty refresh token performs zero
refresh calls, going straight to full authorization: both halves of the
claim ("an expired credential is never returned as-is", "if a refresh token
is present, exactly one refresh call") fail at these concrete inputs. -/
theorem authenticate_counterexample :
    cZ.expiresAt = some 0 ∧ (0 : Nat) < 100 ∧ cZ.refreshToken = some "rt" ∧
    authenticate (some cZ) 100 (Except.ok mdW) (Except.ok tdW) faW = (cZ, []) ∧
    cE.expiresAt = some 10 ∧ (10 : Nat) < 99 ∧ cE.refreshToken = some "" ∧
    authenticate (some cE) 99 (Except.ok mdW) (Except.ok tdW) faW
      = (faW, [AuthEvent.fullAuth]) ∧
    List.count AuthEvent.refreshCall [AuthEvent.fullAuth] = 0 :=
  ⟨rfl, by decide, rfl, rfl, rfl, by decide, rfl, rfl, by decide⟩

/-- C4 amended: `authenticate` returns a stored credential it does not treat
as expired (`expiresAt` absent, zero — falsy — or not in the past) without
any network action; with no stored credential it performs full authorization
once; a credential with nonzero past `expiresAt` and an absent or empty
(falsy) refresh token goes straight to full authorization; a credential with
nonzero past `expiresAt` and a nonempty refresh token triggers at most one
refresh call and at most one full-authorization fallback — exactly one
refresh call when discovery succeeds, returning the refreshed credential on
refresh success, and exactly one full authorization (with the refresh result
discarded) when discovery or the refresh call fails.  A credential the code
treats as expired is thus never returned as-is. -/
theorem authenticate_refresh_flow (c : StoredCredentials) (now : Nat)
    (disc : Except String OAuthMetadata) (resp : Except String TokenResponse)
    (fa : StoredCredentials) :
    (credExpired c now = false →
      authenticate (some c) now disc resp fa = (c, [])) ∧
    (authenticate none now disc resp fa = (fa, [AuthEvent.fullAuth])) ∧
    (credExpired c now = true →
      (c.refreshToken = none ∨ c.refreshToken = some "") →
      authenticate (some c) now disc resp fa = (fa, [AuthEvent.fullAuth])) ∧
    (credExpired c now = true → ∀ rt, c.refreshToken = some rt → rt ≠ "" →
      ((authenticate (some c) now disc resp fa).2.count AuthEvent.refreshCall ≤ 1 ∧
        (authenticate (some c) now disc resp fa).2.count AuthEvent.fullAuth ≤ 1) ∧
      (∀ md, disc = Except.ok md →
        (authenticate (some c) now disc resp fa).2.count AuthEvent.refreshCall = 1) ∧
      (∀ md c2, disc = Except.ok md →
        refreshAccessToken now resp rt c.clientId c.clientSecret = Except.ok c2 →
        authenticate (some c) now disc resp fa
          = (c2, [AuthEvent.discover, AuthEvent.refreshCall])) ∧
      (∀ e, disc = Except.error e →
        (authenticate (some c) now disc resp fa).1 = fa ∧
        (authenticate (some c) now disc resp fa).2.count AuthEvent.fullAuth = 1 ∧
        (authenticate (some c) now disc resp fa).2.count AuthEvent.refreshCall = 0) ∧
      (∀ md e, disc = Except.ok md → resp = Except.error e →
        (authenticate (some c) now disc resp fa).1 = fa ∧
        (authenticate (some c) now disc resp fa).2.count AuthEvent.fullAuth = 1 ∧
        (authenticate (some c) now disc resp fa).2.count AuthEvent.refreshCall = 1)) := by
  refine ⟨fun h => by simp [authenticate, h], rfl, ?_, ?_⟩
  · intro hexp hcase
    rcases hcase with h0 | h0 <;> simp [authenticate, hexp, h0]
  · intro hexp rt hrt hne
    cases disc with
    | error e0 =>
        have hred : authenticate (some c) now (Except.error e0) resp fa
            = (fa, [AuthEvent.discover, AuthEvent.fullAuth]) := by
          simp [authenticate, hexp, hrt, hne]
        rw [hred]
        refine ⟨⟨by simp [List.count_cons], by simp [List.count_cons]⟩, ?_, ?_, ?_, ?_⟩
        · intro md hmd; cases hmd
        · intro md c2 hmd; cases hmd
        · intro e he
          exact ⟨rfl, by simp [List.count_cons], by simp [List.count_cons]⟩
        · intro md e hmd; cases hmd
    | ok md0 =>
        cases hresp : refreshAccessToken now resp rt c.clientId c.clientSecret with
        | ok c2r =>
            have hred : authenticate (some c) now (Except.ok md0) resp fa
                = (c2r, [AuthEvent.discover, AuthEvent.refreshCall]) := by
              simp [authenticate, hexp, hrt, hne, hresp]
            rw [hred]
            refine ⟨⟨by simp [List.count_cons], by simp [List.count_cons]⟩,
              fun md hmd => by simp [List.count_cons], ?_, ?_, ?_⟩
            · intro md c2x hmd hr2
              injection hr2 with h2
              rw [h2]
            · intro e he; cases he
            · intro md e hmd hre
              rw [hre] at hresp
              simp [refreshAccessToken] at hresp
        | error er =>
            have hred : authenticate (some c) now (Except.ok md0) resp fa
                = (fa, [AuthEvent.discover, AuthEvent.refreshCall, AuthEvent.fullAuth]) := by
              simp [authenticate, hexp, hrt, hne, hresp]
            rw [hred]
            refine ⟨⟨by simp [List.count_cons], by simp [List.count_cons]⟩,
              fun md hmd => by simp [List.count_cons], ?_, ?_, ?_⟩
            · intro md c2x hmd hr2
              simp at hr2
            · intro e he; cases he
            · intro md e hmd hre
              exact ⟨rfl, by simp [List.count_cons], by simp [List.count_cons]⟩

/-- Witness for C4 amended: an expired stored credential with a usable refresh token,
successful discovery and a successful token-endpoint response yields the
refreshed credential after exactly a discovery and one refresh call. -/
theorem authenticate_refresh_flow_witness :
    authenticate (some cW) 99 (Except.ok mdW) (Except.ok tdW) faW
      = (c2W, [AuthEvent.discover, AuthEvent.refreshCall]) := by
  have h := authenticate_refresh_flow cW 99 (Except.ok mdW) (Except.ok tdW) faW
  exact (h.2.2.2 (by decide) "rt" rfl (by decide)).2.2.1 mdW c2W rfl rfl

end MCP
